import Mathlib

/-!
Verification of the hostname-resolver and certificate pipeline of the
http-gateway repository, as a shallow embedding in Lean 4.

Modelling conventions:
- An FQDN is modelled as its list of labels, leftmost label first
  (the fqdn crate iterates labels of "nns.ic0.app" as "nns", "ic0", "app");
  labels are taken already normalized (the fqdn crate compares FQDNs
  case-insensitively).
- `Principal` (candid) is modelled as its canonical textual form; the textual
  parser `Principal::from_text` is an external library function and is passed
  around as a parameter `pp : String -> Option Principal`.
- Trait objects (`LooksupCustomDomain`, `ProvidesCertificates`, the HTTP
  client, PEM/JSON parsers) are modelled as function parameters.
- Fallible Rust code returning `Result`/`Option` is modelled with
  `Except`/`Option`.
-/

/-! ## Data model: FQDNs, principals, canisters (src/routing/canister.rs) -/

abbrev FQDN := List String

abbrev Principal := String

/-- Model of `Canister` from src/routing/canister.rs: canister id, the serving domain
it was resolved under, and whether the response must be verified. -/
structure Canister where
  id : Principal
  domain : FQDN
  verify : Bool
deriving DecidableEq, Repr

/-- Model of `host.is_subdomain_of(parent)` of the fqdn crate: `parent`'s labels are a
suffix of `host`'s labels; an FQDN is a subdomain of itself. -/
def isSubdomainOf (host parent : FQDN) : Bool :=
  parent.isSuffixOf host

/-- Model of `CanisterResolver` (src/routing/canister.rs). The custom-domains storage
is behind the `LooksupCustomDomain` trait object; it is modelled as the
function `custom`. -/
structure CanisterResolver where
  domains : List FQDN
  aliases : List (FQDN × Canister)
  custom : FQDN → Option Principal

/-- Model of `CanisterResolver::new`: cross-join each alias with each serving domain.
`FQDN::from_str(&format!("{}.{d}", a.0))` concatenates the label lists. -/
def CanisterResolver.new (domains : List FQDN) (aliasesIn : List (FQDN × Principal))
    (custom : FQDN → Option Principal) : CanisterResolver where
  domains := domains
  aliases :=
    (aliasesIn.map (fun a => domains.map (fun d => (a.1 ++ d, Canister.mk a.2 d true)))).flatten
  custom := custom

/-- Model of `CanisterResolver::resolve_alias`: first alias of which the host is a
subdomain. -/
def CanisterResolver.resolve_alias (r : CanisterResolver) (host : FQDN) : Option Canister :=
  (r.aliases.find? (fun x => isSubdomainOf host x.1)).map (fun x => x.2)

/-- Rust `str::split("--")`: split on non-overlapping occurrences of "--",
scanning left to right (so "a---b" splits as ["a", "-b"]); always yields at
least one piece. -/
def splitDashDash : List Char → List (List Char)
  | '-' :: '-' :: rest => [] :: splitDashDash rest
  | c :: rest =>
    match splitDashDash rest with
    | [] => [[c]]
    | h :: t => (c :: h) :: t
  | [] => [[]]

/-- The candidate canister id taken from the first label: the substring after
the final "--" (`labels.next()?.split("--").last()?`; on a non-empty input
`split` always yields at least one piece, so `last()` never fails). -/
def candidateId (label : String) : String :=
  String.mk ((splitDashDash label.toList).getLastD [])

/-- The peek/consume step of `resolve_domain`: if the next label is "raw" it
is consumed and the response will not be verified. Returns the verify flag
and the remaining labels. -/
def consumeRaw (rest : FQDN) : Bool × FQDN :=
  if rest.head? = some "raw" then (false, rest.tail) else (true, rest)

/-- Model of `CanisterResolver::resolve_domain`: resolve `<id>.<domain>` or
`<id>.raw.<domain>`. After consuming the id label and an optional "raw"
label, the remaining labels are joined with "." and re-parsed with
`FQDN::from_str`, which for labels that came from a parsed FQDN is the
identity; the empty join (no labels left) does not produce a configured
serving domain, hence resolves to none. The domain must then be one of the
configured serving domains (`self.domains.iter().any(|x| x == &domain)`). -/
def CanisterResolver.resolve_domain (pp : String → Option Principal)
    (r : CanisterResolver) (host : FQDN) : Option Canister :=
  match host with
  | [] => none
  | l :: rest =>
    match pp (candidateId l) with
    | none => none
    | some id =>
      let vr := consumeRaw rest
      if vr.2 = [] then none
      else if vr.2 ∈ r.domains then some ⟨id, vr.2, vr.1⟩
      else none

/-- Model of `CanisterResolver::resolve_canister` (impl `ResolvesCanister`): alias
match, then canonical form, then custom-domain lookup; first hit wins. -/
def CanisterResolver.resolve_canister (pp : String → Option Principal)
    (r : CanisterResolver) (host : FQDN) : Option Canister :=
  (r.resolve_alias host).orElse (fun _ =>
    (CanisterResolver.resolve_domain pp r host).orElse (fun _ =>
      (r.custom host).map (fun id => ⟨id, host, true⟩)))

/-! ### Concrete test fixtures for the resolver -/

/-- Test principal parser: recognizes only the management canister id. -/
def ppTest : String → Option Principal :=
  fun s => if s = "aaaaa-aa" then some "aaaaa-aa" else none

/-- Test custom-domain table. -/
def customTest : FQDN → Option Principal :=
  fun h => if h = ["shop", "example"] then some "shop-canister" else none

/-- Test resolver: one serving domain ic0.app, one alias aaaaa-aa -> qoctq. -/
def rTest : CanisterResolver :=
  CanisterResolver.new [["ic0", "app"]] [(["aaaaa-aa"], "qoctq")] customTest

example : rTest.resolve_alias ["aaaaa-aa", "ic0", "app"]
    = some ⟨"qoctq", ["ic0", "app"], true⟩ := by decide
example : CanisterResolver.resolve_domain ppTest rTest ["aaaaa-aa", "raw", "ic0", "app"]
    = some ⟨"aaaaa-aa", ["ic0", "app"], false⟩ := by decide
example : CanisterResolver.resolve_canister ppTest rTest ["shop", "example"]
    = some ⟨"shop-canister", ["shop", "example"], true⟩ := by decide
example : CanisterResolver.resolve_domain ppTest rTest ["aaaaa-aa", "foo", "ic0", "app"]
    = none := by decide

/-! ## Aggregator (src/tls/cert/mod.rs)

One poll round of `Aggregator::run`. The providers are trait objects; a round
is modelled by the list of their `get_certificates()` results, in provider
order. The storage (`StorageKey::store`, whose module is not under src/) is
modelled as an arbitrary state transition passed as a parameter. -/

/-- Model of `Aggregator::fetch`: `collect::<Result<Vec<_>, _>>()` keeps the first
error, otherwise the per-provider lists are flattened in provider order. -/
def aggFetch {ε α : Type} (results : List (Except ε (List α))) : Except ε (List α) :=
  (results.mapM id).map List.flatten

/-- The argument `Aggregator::run` passes to `storage.store` in one tick:
on a fetch error it logs and continues without calling `store`; on success it
calls `store` with the flattened certificates, with no emptiness check. -/
def aggStoreArg {ε α : Type} (results : List (Except ε (List α))) : Option (List α) :=
  match aggFetch results with
  | .error _ => none
  | .ok v => some v

/-- The published snapshot after one tick of `Aggregator::run`, for an
arbitrary model `store` of what `StorageKey::store` does to the published
state: the state changes only through a `store` call. -/
def aggTick {ε α σ : Type} (store : List α → σ → σ)
    (results : List (Except ε (List α))) (s : σ) : σ :=
  match aggStoreArg results with
  | none => s
  | some v => store v s

/-! ## Issuer certificate importer (src/tls/cert/providers/issuer/mod.rs) -/

/-- Model of `VerifyError` (verify.rs): expected and actual common name. -/
inductive VerifyError where
  | commonNameMismatch (expected actual : String)
deriving DecidableEq, Repr

/-- Model of `Error` of the issuer provider module. -/
inductive ImportError where
  | unexpected (msg : String)
  | verification (e : VerifyError)
deriving DecidableEq, Repr

/-- Model of `Package` of the issuer endpoint: name, canister and the key/chain pair. -/
structure Package where
  name : String
  canister : Principal
  keyPem : List Nat
  chainPem : List Nat
deriving DecidableEq, Repr

/-- An HTTP response: status code and body. -/
structure HttpResponse where
  status : Nat
  body : String
deriving DecidableEq, Repr

/-- Model of `CertificatesImporter::import` (impl `Import`): GET the stored URL; any
status other than 200 OK is an error; otherwise the body is parsed as a JSON
array of packages. The HTTP client and serde_json are external and passed as
parameters. -/
def importCerts (execute : Unit → Except String HttpResponse)
    (parseJson : String → Option (List Package)) : Except ImportError (List Package) :=
  match execute () with
  | .error e => .error (.unexpected e)
  | .ok resp =>
    if resp.status = 200 then
      match parseJson resp.body with
      | none => .error (.unexpected "failed to parse json body")
      | some pkgs => .ok pkgs
    else .error (.unexpected "request failed")

/-- Modelled from the spec: the verifier of verify.rs is not under src/ (only
its caller `WithVerify` and its tests are). Per the spec, the first
certificate's commonName MUST equal the package's `name`; a mismatch is
`CommonNameMismatch(expected, actual)`. The commonName extraction (x509
parsing) is passed as the parameter `cn`. -/
def verifyPackage (cn : Package → String) (p : Package) : Except VerifyError Unit :=
  if cn p = p.name then .ok () else .error (.commonNameMismatch p.name (cn p))

/-- Model of `impl Import for WithVerify`: import via the wrapped importer, then run
the verifier over each package in order; the first verification error aborts
the import, otherwise the packages are returned unchanged. -/
def withVerifyImport (verify : Package → Except VerifyError Unit)
    (inner : Except ImportError (List Package)) : Except ImportError (List Package) :=
  match inner with
  | .error e => .error e
  | .ok pkgs =>
    match pkgs.findSome? (fun p =>
        match verify p with
        | .error e => some e
        | .ok _ => none) with
    | some e => .error (.verification e)
    | none => .ok pkgs

/-! ## Issuer URL handling (`CertificatesImporter::new`)

A URL is modelled by its host part (scheme, authority) and its path. The two
url-crate operations used by `new` are modelled per their RFC 3986 semantics:
`set_path("")` resets the path (normalized to "/" for http(s) URLs), and
`join(ref)` with a reference starting in "/" (an absolute-path reference)
replaces the base path entirely. -/

structure UrlM where
  host : String
  path : String
deriving DecidableEq, Repr

/-- Model of `url::Url::set_path`. -/
def urlSetPath (u : UrlM) (p : String) : UrlM :=
  { u with path := if p = "" then "/" else p }

/-- Model of `url::Url::join`, for the two RFC 3986 cases relevant to path handling:
an absolute-path reference replaces the whole path, a relative one is merged
onto the base path with its last segment dropped. -/
def urlJoin (u : UrlM) (ref : String) : UrlM :=
  if ref.toList.head? = some '/' then { u with path := ref }
  else { u with path := String.mk (u.path.toList.reverse.dropWhile (fun c => c ≠ '/')).reverse ++ ref }

/-- The `exporter_url` computed by `CertificatesImporter::new`:
`exporter_url.set_path(""); exporter_url.join("/certificates")`. `import`
then issues its GET request to exactly this URL. -/
def certificatesImporterUrl (exporterUrl : UrlM) : UrlM :=
  urlJoin (urlSetPath exporterUrl "") "/certificates"

example : certificatesImporterUrl ⟨"http://foo", "/some/path"⟩ = ⟨"http://foo", "/certificates"⟩ := by decide

/-! ## Directory certificate provider (src/tls/cert/providers/dir.rs)

`read_dir` is non-recursive; the directory is modelled as the list of its
entries in iteration order, the filesystem reads as `readF : String ->
Option bytes` (`none` = read error) and `pem_convert_to_rustls` as
`parse : key -> chain -> Option cert`. -/

/-- One directory entry: its file name and whether it is a regular file. -/
structure DirEntry where
  fname : String
  isFile : Bool
deriving DecidableEq, Repr

/-- Rust ASCII-only lowercasing of a character (`eq_ignore_ascii_case` folds
only the ASCII range). -/
def asciiLowerChar (c : Char) : Char :=
  if 65 ≤ c.toNat ∧ c.toNat ≤ 90 then Char.ofNat (c.toNat + 32) else c

/-- Rust `str::eq_ignore_ascii_case`. -/
def eqIgnoreAsciiCase (a b : String) : Bool :=
  a.toList.map asciiLowerChar == b.toList.map asciiLowerChar

/-- Rust `Path::file_stem` / `Path::extension` on a file name: split at the
last dot; a name without a dot, or whose only dot is leading (a hidden file),
has no extension and is its own stem. -/
def splitExt (name : String) : String × Option String :=
  let cs := name.toList
  let rev := cs.reverse
  let afterRev := rev.takeWhile (fun c => c ≠ '.')
  if afterRev.length = rev.length then (name, none)
  else if rev.length - afterRev.length - 1 = 0 then (name, none)
  else (String.mk (cs.take (rev.length - afterRev.length - 1)), some (String.mk afterRev.reverse))

example : splitExt "foobar.pem" = ("foobar", some "pem") := by decide
example : splitExt ".pem" = (".pem", none) := by decide
example : splitExt "a.b.PEM" = ("a.b", some "PEM") := by decide
example : splitExt "foobar" = ("foobar", none) := by decide

/-- The filter of the provider loop: entry is a regular file with a `.pem`
extension, matched case-insensitively. -/
def isPemFileEntry (e : DirEntry) : Bool :=
  e.isFile &&
    (match (splitExt e.fname).2 with
     | some ext => eqIgnoreAsciiCase ext "pem"
     | none => false)

/-- One loop iteration's load of a pem/key pair: read the chain from the
entry, read `<stem>.key`, parse the pair; any failure fails the provider
call. -/
def loadPair {α : Type} (readF : String → Option (List Nat))
    (parse : List Nat → List Nat → Option α) (e : DirEntry) : Option α := do
  let chain ← readF e.fname
  let key ← readF ((splitExt e.fname).1 ++ ".key")
  parse key chain

/-- Model of `Provider::get_certificates` of the directory provider: walk the entries
in order, skip non-files and non-`.pem` names, and load each remaining pair;
the first failed read or parse fails the whole call. -/
def dirGetCertificates {α : Type} (readF : String → Option (List Nat))
    (parse : List Nat → List Nat → Option α) : List DirEntry → Option (List α)
  | [] => some []
  | e :: rest =>
    if e.isFile = false then dirGetCertificates readF parse rest
    else
      match (splitExt e.fname).2 with
      | none => dirGetCertificates readF parse rest
      | some ext =>
        if eqIgnoreAsciiCase ext "pem" = false then dirGetCertificates readF parse rest
        else
          match readF e.fname with
          | none => none
          | some chain =>
            match readF ((splitExt e.fname).1 ++ ".key") with
            | none => none
            | some key =>
              match parse key chain with
              | none => none
              | some cert => (dirGetCertificates readF parse rest).map (fun cs => cert :: cs)

/-- All-or-nothing sequential load over a list (`Option`-valued `mapM` with
explicit structure): the reference point for `dirGetCertificates`. -/
def mapOption {β α : Type} (f : β → Option α) : List β → Option (List α)
  | [] => some []
  | x :: xs =>
    match f x with
    | none => none
    | some y => (mapOption f xs).map (fun ys => y :: ys)

/-! ## SAN extraction (src/tls/cert/mod.rs)

`extract_san_from_der` over a parsed X.509 certificate. The x509 parser is
external; a certificate is modelled by its parsed extension list plus its
subject commonName (which the function never reads). The textual rendering
of 4-byte and 16-byte IP addresses (`Ipv4Addr`/`Ipv6Addr` `Display`) is
external and passed as the parameters `ip4`/`ip6`. -/

inductive GeneralName where
  | dnsName (s : String)
  | ipAddress (v : List Nat)
  | otherKind
deriving DecidableEq, Repr

inductive CertExtension where
  | subjectAltName (names : List GeneralName)
  | otherExt
deriving DecidableEq, Repr

structure X509Cert where
  commonName : String
  extensions : List CertExtension
deriving DecidableEq, Repr

/-- The collection loop over the general names of a SubjectAlternativeName
extension: DNS names are kept as-is, IP addresses of length 4 and 16 are
rendered as IPv4/IPv6 text, an IP address of any other length aborts with an
error, and every other general-name kind is skipped. -/
def renderGeneralNames (ip4 ip6 : List Nat → String) : List GeneralName → Option (List String)
  | [] => some []
  | .dnsName s :: rest => (renderGeneralNames ip4 ip6 rest).map (fun ns => s :: ns)
  | .ipAddress v :: rest =>
    if v.length = 4 then (renderGeneralNames ip4 ip6 rest).map (fun ns => ip4 v :: ns)
    else if v.length = 16 then (renderGeneralNames ip4 ip6 rest).map (fun ns => ip6 v :: ns)
    else none
  | .otherKind :: rest => renderGeneralNames ip4 ip6 rest

/-- The extension scan of `extract_san_from_der`: the loop returns at the
first SubjectAlternativeName extension. -/
def findSan : List CertExtension → Option (List GeneralName)
  | [] => none
  | .subjectAltName ns :: _ => some ns
  | .otherExt :: rest => findSan rest

/-- Model of `extract_san_from_der`: error if there is no SubjectAlternativeName
extension, or if the first one yields an invalid-length IP address or no
supported names at all; otherwise the collected names. -/
def extract_san_from_der (ip4 ip6 : List Nat → String) (cert : X509Cert) : Option (List String) :=
  match findSan cert.extensions with
  | none => none
  | some ns =>
    match renderGeneralNames ip4 ip6 ns with
    | none => none
    | some names => if names = [] then none else some names

/-- The SAN part of `pem_convert_to_rustls`: an empty parsed chain is an
error, otherwise the SANs are extracted from the first certificate of the
chain. -/
def pemChainSan (ip4 ip6 : List Nat → String) : List X509Cert → Option (List String)
  | [] => none
  | c :: _ => extract_san_from_der ip4 ip6 c

/-! ## Error causes (src/routing/error_cause.rs) -/

inductive RateLimitCause where
  | normal
deriving DecidableEq, Repr

/-- strum snake_case serialization of `RateLimitCause`. -/
def RateLimitCause.text : RateLimitCause → String
  | .normal => "normal"

/-- Model of `ErrorCause`: categorized causes for request processing failures. -/
inductive ErrorCause where
  | unableToReadBody (detail : String)
  | loadShed
  | requestTooLarge
  | incorrectPrincipal
  | malformedRequest (detail : String)
  | noAuthority
  | unknownDomain
  | canisterIdNotFound
  | domainCanisterMismatch
  | denylisted
  | agentError (detail : String)
  | backendErrorDNS (detail : String)
  | backendErrorConnect
  | backendTimeout
  | backendTLSErrorOther (detail : String)
  | backendTLSErrorCert (detail : String)
  | rateLimited (c : RateLimitCause)
  | other (detail : String)
deriving DecidableEq, Repr

/-- Model of `impl fmt::Display for ErrorCause`: the canonical snake_case kind name. -/
def ErrorCause.display : ErrorCause → String
  | .other _ => "general_error"
  | .unableToReadBody _ => "unable_to_read_body"
  | .loadShed => "load_shed"
  | .requestTooLarge => "request_too_large"
  | .incorrectPrincipal => "incorrect_principal"
  | .malformedRequest _ => "malformed_request"
  | .unknownDomain => "unknown_domain"
  | .canisterIdNotFound => "canister_id_not_found"
  | .domainCanisterMismatch => "domain_canister_mismatch"
  | .denylisted => "denylisted"
  | .noAuthority => "no_authority"
  | .agentError _ => "agent_error"
  | .backendErrorDNS _ => "backend_error_dns"
  | .backendErrorConnect => "backend_error_connect"
  | .backendTimeout => "backend_timeout"
  | .backendTLSErrorOther _ => "backend_tls_error"
  | .backendTLSErrorCert _ => "backend_tls_error_cert"
  | .rateLimited c => "rate_limited_" ++ c.text

/-- Model of `ErrorCause::details`. -/
def ErrorCause.details : ErrorCause → Option String
  | .other x => some x
  | .unableToReadBody x => some x
  | .loadShed => some "Overloaded"
  | .malformedRequest x => some x
  | .backendErrorDNS x => some x
  | .backendTLSErrorOther x => some x
  | .backendTLSErrorCert x => some x
  | .agentError x => some x
  | .rateLimited x => some x.text
  | _ => none

/-- Model of `ErrorCause::html`: only `Denylisted` has an HTML body. The bundled page
(error_pages/451.html, shipped via include_str and not under src/) is passed
as the parameter `page451`. -/
def ErrorCause.htmlBody (page451 : String) : ErrorCause → Option String
  | .denylisted => some page451
  | _ => none

/-- The response body built by `impl IntoResponse for ErrorCause`: the HTML
reply when there is one (with a trailing newline), otherwise
"<kind>: <detail>\n" when there is a detail and just "<kind>" when not. -/
def intoResponseBody (page451 : String) (c : ErrorCause) : String :=
  match c.htmlBody page451 with
  | some x => x ++ "\n"
  | none =>
    match c.details with
    | some d => c.display ++ ": " ++ d ++ "\n"
    | none => c.display

/-! # Theorems -/

/-! ## Hostname resolver -/

/-- Every alias entry built by `CanisterResolver::new` carries one of the
configured serving domains. -/
theorem mem_new_aliases {domains : List FQDN} {aliasesIn : List (FQDN × Principal)}
    {custom : FQDN → Option Principal} {x : FQDN × Canister}
    (h : x ∈ (CanisterResolver.new domains aliasesIn custom).aliases) :
    x.2.domain ∈ domains ∧ x.2.verify = true := by
  simp only [CanisterResolver.new, List.mem_flatten, List.mem_map] at h
  obtain ⟨l, ⟨a, _, rfl⟩, hx⟩ := h
  simp only [List.mem_map] at hx
  obtain ⟨d, hd, rfl⟩ := hx
  exact ⟨hd, rfl⟩

/-- Any canister returned by `resolve_domain` carries a configured serving
domain, and a non-empty one. -/
theorem resolve_domain_domain_mem {pp : String → Option Principal}
    {r : CanisterResolver} {host : FQDN} {c : Canister}
    (h : CanisterResolver.resolve_domain pp r host = some c) :
    c.domain ∈ r.domains ∧ c.domain ≠ [] := by
  cases host with
  | nil => simp [CanisterResolver.resolve_domain] at h
  | cons l rest =>
    cases hpp : pp (candidateId l) with
    | none => simp [CanisterResolver.resolve_domain, hpp] at h
    | some id =>
      simp only [CanisterResolver.resolve_domain, hpp] at h
      split_ifs at h with h1 h2
      obtain rfl := Option.some.inj h
      exact ⟨h2, h1⟩

/-- C1: the hostname resolver tries alias match, canonical form and
custom-domain lookup in that fixed order and returns the first hit: an alias
hit is returned as-is; when the alias rule misses, a canonical-form hit is
returned; and when both miss, the result is exactly the custom-domain
lookup (with the hostname itself as domain and verify set). -/
theorem resolver_rule_order (pp : String → Option Principal)
    (r : CanisterResolver) (host : FQDN) :
    (∀ c, r.resolve_alias host = some c →
      CanisterResolver.resolve_canister pp r host = some c) ∧
    (r.resolve_alias host = none → ∀ c,
      CanisterResolver.resolve_domain pp r host = some c →
      CanisterResolver.resolve_canister pp r host = some c) ∧
    (r.resolve_alias host = none →
      CanisterResolver.resolve_domain pp r host = none →
      CanisterResolver.resolve_canister pp r host
        = (r.custom host).map (fun id => ⟨id, host, true⟩)) := by
  refine ⟨fun c h => ?_, fun hn c h => ?_, fun hn hd => ?_⟩
  · unfold CanisterResolver.resolve_canister
    rw [h]
    rfl
  · unfold CanisterResolver.resolve_canister
    rw [hn, h]
    rfl
  · unfold CanisterResolver.resolve_canister
    rw [hn, hd]
    rfl

/-- Witness for C1 at concrete inputs: a host matched by an alias (where the
canonical rule would also produce a hit, with a different canister) resolves
to the alias entry; with the alias rule missing, the canonical rule hit is
returned; with both missing, the custom-domain binding is returned. -/
theorem resolver_rule_order_witness :
    CanisterResolver.resolve_canister ppTest rTest ["aaaaa-aa", "ic0", "app"]
      = some ⟨"qoctq", ["ic0", "app"], true⟩ ∧
    CanisterResolver.resolve_canister ppTest rTest ["aaaaa-aa", "raw", "ic0", "app"]
      = some ⟨"aaaaa-aa", ["ic0", "app"], false⟩ ∧
    CanisterResolver.resolve_canister ppTest rTest ["shop", "example"]
      = some ⟨"shop-canister", ["shop", "example"], true⟩ := by
  refine ⟨?_, ?_, ?_⟩
  · exact (resolver_rule_order ppTest rTest _).1 _ (by decide)
  · exact (resolver_rule_order ppTest rTest _).2.1 (by decide) _ (by decide)
  · exact ((resolver_rule_order ppTest rTest _).2.2 (by decide) (by decide)).trans (by decide)

/-- C4: any triple returned by the hostname resolver carries either one of
the configured serving domains (alias and canonical paths) or the input
hostname itself, in which case the verify flag is set (custom-domain path). -/
theorem resolve_canister_domain_sound (pp : String → Option Principal)
    (domains : List FQDN) (aliasesIn : List (FQDN × Principal))
    (custom : FQDN → Option Principal) (host : FQDN) (c : Canister)
    (h : CanisterResolver.resolve_canister pp
      (CanisterResolver.new domains aliasesIn custom) host = some c) :
    c.domain ∈ domains ∨ (c.domain = host ∧ c.verify = true) := by
  unfold CanisterResolver.resolve_canister at h
  cases halias : (CanisterResolver.new domains aliasesIn custom).resolve_alias host with
  | some x =>
    rw [halias] at h
    obtain rfl : x = c := Option.some.inj h
    unfold CanisterResolver.resolve_alias at halias
    obtain ⟨y, hy, rfl⟩ : ∃ y, y ∈ (CanisterResolver.new domains aliasesIn custom).aliases
        ∧ y.2 = x := by
      cases hf : (CanisterResolver.new domains aliasesIn custom).aliases.find?
          (fun z => isSubdomainOf host z.1) with
      | none => rw [hf] at halias; exact absurd halias (by simp)
      | some y =>
        rw [hf] at halias
        exact ⟨y, List.mem_of_find?_eq_some hf, Option.some.inj halias⟩
    exact Or.inl (mem_new_aliases hy).1
  | none =>
    rw [halias] at h
    cases hdom : CanisterResolver.resolve_domain pp
        (CanisterResolver.new domains aliasesIn custom) host with
    | some x =>
      rw [hdom] at h
      obtain rfl : x = c := Option.some.inj h
      exact Or.inl (resolve_domain_domain_mem hdom).1
    | none =>
      rw [hdom] at h
      have h2 : ((CanisterResolver.new domains aliasesIn custom).custom host).map
          (fun id => (⟨id, host, true⟩ : Canister)) = some c := h
      rw [Option.map_eq_some'] at h2
      obtain ⟨id, _, rfl⟩ := h2
      exact Or.inr ⟨rfl, rfl⟩

/-- Witness for C4 at concrete inputs: a canonical-form hit lands on a
configured serving domain, a custom-domain hit returns the hostname itself
with verify set. -/
theorem resolve_canister_domain_sound_witness :
    ((⟨"aaaaa-aa", ["ic0", "app"], false⟩ : Canister).domain ∈ [[ "ic0", "app" ]] ∨
      ((⟨"aaaaa-aa", ["ic0", "app"], false⟩ : Canister).domain = ["aaaaa-aa", "raw", "ic0", "app"] ∧
        (⟨"aaaaa-aa", ["ic0", "app"], false⟩ : Canister).verify = true)) ∧
    ((⟨"shop-canister", ["shop", "example"], true⟩ : Canister).domain ∈ [[ "ic0", "app" ]] ∨
      ((⟨"shop-canister", ["shop", "example"], true⟩ : Canister).domain = ["shop", "example"] ∧
        (⟨"shop-canister", ["shop", "example"], true⟩ : Canister).verify = true)) :=
  ⟨resolve_canister_domain_sound ppTest [["ic0", "app"]] [(["aaaaa-aa"], "qoctq")] customTest
      ["aaaaa-aa", "raw", "ic0", "app"] _ (by decide),
    resolve_canister_domain_sound ppTest [["ic0", "app"]] [(["aaaaa-aa"], "qoctq")] customTest
      ["shop", "example"] _ (by decide)⟩

/-- Consuming the "raw" label: when the next label is "raw" it is consumed
and verification is off. -/
theorem consumeRaw_raw (tl : FQDN) : consumeRaw ("raw" :: tl) = (false, tl) := by
  simp [consumeRaw]

/-- When the next label is not "raw", nothing is consumed and verification
stays on. -/
theorem consumeRaw_not_raw {rest : FQDN} (h : rest.head? ≠ some "raw") :
    consumeRaw rest = (true, rest) := by
  simp [consumeRaw, h]

/-- C2: characterization of the canonical-form resolution step.
`resolve_domain` succeeds with canister `c` exactly when the host has a
first label whose substring after the final "--" parses as the principal
`c.id`, followed either by the label "raw" and then exactly the labels of
`c.domain` (then `c.verify = false`), or directly by exactly the labels of
`c.domain` with no "raw" next (then `c.verify = true`), where `c.domain` is
one of the configured serving domains. In particular a nested hostname
`<id>.<m>.<domain>` with `m` neither "raw" nor the head of a configured
domain suffix resolves to none via this step. -/
theorem resolve_domain_canonical (pp : String → Option Principal) (r : CanisterResolver) :
    (∀ host c, CanisterResolver.resolve_domain pp r host = some c ↔
      ∃ l rest, host = l :: rest ∧
        pp (candidateId l) = some c.id ∧
        c.domain ≠ [] ∧ c.domain ∈ r.domains ∧
        ((c.verify = false ∧ rest = "raw" :: c.domain) ∨
         (c.verify = true ∧ rest = c.domain ∧ rest.head? ≠ some "raw"))) ∧
    (∀ l m d, m ≠ "raw" → (m :: d) ∉ r.domains →
      CanisterResolver.resolve_domain pp r (l :: m :: d) = none) := by
  constructor
  · intro host c
    constructor
    · intro h
      cases host with
      | nil => simp [CanisterResolver.resolve_domain] at h
      | cons l rest =>
        cases hpp : pp (candidateId l) with
        | none => simp [CanisterResolver.resolve_domain, hpp] at h
        | some id =>
          simp only [CanisterResolver.resolve_domain, hpp] at h
          refine ⟨l, rest, rfl, ?_⟩
          by_cases hraw : rest.head? = some "raw"
          · obtain ⟨tl, rfl⟩ : ∃ tl, rest = "raw" :: tl := by
              cases rest with
              | nil => simp at hraw
              | cons hd tl => exact ⟨tl, by simp_all⟩
            rw [consumeRaw_raw] at h
            split_ifs at h with h1 h2
            obtain rfl := Option.some.inj h
            exact ⟨hpp, h1, h2, Or.inl ⟨rfl, rfl⟩⟩
          · rw [consumeRaw_not_raw hraw] at h
            split_ifs at h with h1 h2
            obtain rfl := Option.some.inj h
            exact ⟨hpp, h1, h2, Or.inr ⟨rfl, rfl, hraw⟩⟩
    · rintro ⟨l, rest, rfl, hpp, hne, hdom, hcase⟩
      obtain ⟨cid, cdom, cver⟩ := c
      simp only at hpp hne hdom hcase
      rcases hcase with ⟨hv, rfl⟩ | ⟨hv, rfl, hraw⟩
      · subst hv
        simp [CanisterResolver.resolve_domain, hpp, consumeRaw_raw, hne, hdom]
      · subst hv
        simp [CanisterResolver.resolve_domain, hpp, consumeRaw_not_raw hraw, hne, hdom]
  · intro l m d hm hdom
    cases hpp : pp (candidateId l) with
    | none => simp [CanisterResolver.resolve_domain, hpp]
    | some id =>
      have hraw : (m :: d).head? ≠ some "raw" := by simpa using hm
      simp [CanisterResolver.resolve_domain, hpp, consumeRaw_not_raw hraw, hdom]

/-- Witness for C2 at concrete inputs: a first label with a "--" prefix
resolves via the characterization, and a nested `aaaaa-aa.foo.ic0.app` does
not resolve via the canonical step. -/
theorem resolve_domain_canonical_witness :
    CanisterResolver.resolve_domain ppTest rTest ["foo--aaaaa-aa", "ic0", "app"]
      = some ⟨"aaaaa-aa", ["ic0", "app"], true⟩ ∧
    CanisterResolver.resolve_domain ppTest rTest ["aaaaa-aa", "foo", "ic0", "app"] = none :=
  ⟨((resolve_domain_canonical ppTest rTest).1 _ _).mpr
      ⟨"foo--aaaaa-aa", ["ic0", "app"], rfl, by decide, by decide, by decide,
        Or.inr ⟨rfl, rfl, by decide⟩⟩,
    (resolve_domain_canonical ppTest rTest).2 "aaaaa-aa" "foo" ["ic0", "app"]
      (by decide) (by decide)⟩

/-! ## Aggregator -/

/-- Sequencing provider results: an error in any position makes `mapM id`
fail, all-successes yield the list of payloads. -/
theorem mapM_id_except {ε α : Type} :
    ∀ (oks : List (List α)), (oks.map (Except.ok : List α → Except ε (List α))).mapM id
      = Except.ok oks
  | [] => rfl
  | x :: xs => by
    simp only [List.map_cons, List.mapM_cons, id]
    rw [mapM_id_except xs]
    rfl

/-- An errored element anywhere makes the sequencing fail. -/
theorem mapM_id_except_error {ε α : Type} {e : ε}
    {results : List (Except ε (List α))} (h : Except.error e ∈ results) :
    ∃ e2, results.mapM id = Except.error e2 := by
  induction results with
  | nil => simp at h
  | cons r rs ih =>
    rcases List.mem_cons.mp h with rfl | hmem
    · exact ⟨e, rfl⟩
    · cases r with
      | error e3 => exact ⟨e3, rfl⟩
      | ok v =>
        obtain ⟨e2, he2⟩ := ih hmem
        refine ⟨e2, ?_⟩
        simp only [List.mapM_cons, id]
        rw [he2]
        rfl

/-- C3 (amended): in one aggregator tick, `store` is invoked with the
flattened provider results (provider order, then per-provider order)
whenever every provider call succeeded — including when the flattened list
is empty; if any provider returned an error, `store` is not invoked and the
previously published snapshot remains current, whatever the store does. -/
theorem aggregator_round_publish {ε α σ : Type} (store : List α → σ → σ)
    (results : List (Except ε (List α))) (s : σ) :
    (∀ oks : List (List α), results = oks.map Except.ok →
      aggStoreArg results = some oks.flatten) ∧
    (∀ e, Except.error e ∈ results →
      aggStoreArg results = none ∧ aggTick store results s = s) := by
  constructor
  · rintro oks rfl
    simp only [aggStoreArg, aggFetch, mapM_id_except]
    rfl
  · intro e he
    obtain ⟨e2, he2⟩ := mapM_id_except_error he
    have harg : aggStoreArg results = none := by
      simp only [aggStoreArg, aggFetch, he2]
      rfl
    exact ⟨harg, by simp only [aggTick, harg]⟩

/-- Witness for C3 (amended) at concrete inputs: two successful providers
publish the flattened list in order; one failing provider prevents the store
call and keeps the previous snapshot. -/
theorem aggregator_round_publish_witness :
    aggStoreArg (ε := Unit) [Except.ok [1, 2], Except.ok [3]] = some [1, 2, 3] ∧
    aggTick (fun v _ => v) [Except.ok [1], Except.error ()] [9] = [9] :=
  ⟨((aggregator_round_publish (fun (v : List Nat) (_ : List Nat) => v)
        [Except.ok [1, 2], Except.ok [3]] []).1 [[1, 2], [3]] rfl).trans (by decide),
    ((aggregator_round_publish (fun v _ => v) [Except.ok [1], Except.error ()] [9]).2
      () (by simp)).2⟩

/-- Counterexample to C3 as stated: with every provider succeeding but the
flattened list empty (here a single provider returning zero certificates),
the aggregator still invokes the store operation, with the empty list. -/
theorem aggregator_empty_round_counterexample :
    aggStoreArg (ε := Unit) (α := Nat) [Except.ok []] = some []
      ∧ ([] : List Nat).isEmpty = true := by
  constructor
  · rfl
  · rfl

/-! ## Issuer importer and verifier wrapper -/

/-- C5: the verifying wrapper verifies every package of a successful
inner import; it returns the package list unchanged when all names match;
when some package's certificate commonName differs from its `name`, the
whole import fails with `CommonNameMismatch(expected, actual)` for the first
such package, and no packages are returned. -/
theorem with_verify_import_spec (cn : Package → String) (pkgs : List Package) :
    ((∀ p ∈ pkgs, cn p = p.name) →
      withVerifyImport (verifyPackage cn) (.ok pkgs) = .ok pkgs) ∧
    (∀ pre p post, pkgs = pre ++ p :: post → (∀ q ∈ pre, cn q = q.name) → cn p ≠ p.name →
      withVerifyImport (verifyPackage cn) (.ok pkgs)
        = .error (.verification (.commonNameMismatch p.name (cn p)))) := by
  constructor
  · intro hall
    have hfind : pkgs.findSome? (fun p =>
        match verifyPackage cn p with
        | .error e => some e
        | .ok _ => none) = none := by
      rw [List.findSome?_eq_none_iff]
      intro p hp
      simp [verifyPackage, hall p hp]
    simp [withVerifyImport, hfind]
  · rintro pre p post rfl hpre hp
    have hfind : (pre ++ p :: post).findSome? (fun q =>
        match verifyPackage cn q with
        | .error e => some e
        | .ok _ => none) = some (.commonNameMismatch p.name (cn p)) := by
      induction pre with
      | nil => simp [List.findSome?_cons, verifyPackage, hp]
      | cons q qs ih =>
        have hq : cn q = q.name := hpre q (by simp)
        simp only [List.cons_append, List.findSome?_cons, verifyPackage, hq, if_pos rfl]
        exact ih (fun q2 hq2 => hpre q2 (by simp [hq2]))
    simp [withVerifyImport, hfind]

/-- A sample package for the witnesses. -/
def pkgA : Package := ⟨"name-1", "aaaaa-aa", [1, 2, 3], [4, 5, 6]⟩

/-- Witness for C5 at concrete inputs: a matching common name passes the
package through unchanged; a mismatching one aborts the import with the
mismatch error. -/
theorem with_verify_import_spec_witness :
    withVerifyImport (verifyPackage Package.name) (.ok [pkgA]) = .ok [pkgA] ∧
    withVerifyImport (verifyPackage (fun _ => "name-2")) (.ok [pkgA])
      = .error (.verification (.commonNameMismatch "name-1" "name-2")) :=
  ⟨(with_verify_import_spec Package.name [pkgA]).1 (fun p _ => rfl),
    (with_verify_import_spec (fun _ => "name-2") [pkgA]).2 [] pkgA [] rfl
      (by simp) (by decide)⟩

/-- C8 (amended): the issuer importer returns the parsed package list exactly
when the HTTP call succeeded with status 200 OK and the body parses as a
JSON package array; any other status — in particular any non-2xx status, but
also 2xx statuses other than 200 — yields an error. -/
theorem import_status_spec (execute : Unit → Except String HttpResponse)
    (parseJson : String → Option (List Package)) :
    (∀ pkgs, importCerts execute parseJson = .ok pkgs ↔
      ∃ resp, execute () = .ok resp ∧ resp.status = 200 ∧ parseJson resp.body = some pkgs) ∧
    (∀ resp, execute () = .ok resp → resp.status ≠ 200 →
      ∃ e, importCerts execute parseJson = .error e) := by
  constructor
  · intro pkgs
    constructor
    · intro h
      cases hex : execute () with
      | error e => simp [importCerts, hex] at h
      | ok resp =>
        refine ⟨resp, rfl, ?_⟩
        simp only [importCerts, hex] at h
        split_ifs at h with hs
        · cases hp : parseJson resp.body with
          | none => rw [hp] at h; exact absurd h (by simp)
          | some v =>
            rw [hp] at h
            exact ⟨hs, congrArg some (Except.ok.inj h)⟩
    · rintro ⟨resp, hex, hs, hp⟩
      simp [importCerts, hex, hs, hp]
  · intro resp hex hs
    refine ⟨.unexpected "request failed", ?_⟩
    simp [importCerts, hex, hs]

/-- Witness for C8 (amended) at concrete inputs: a 200 response with a
parsing body yields its packages; a 404 response yields an error. -/
theorem import_status_spec_witness :
    importCerts (fun _ => .ok ⟨200, "[]"⟩) (fun _ => some []) = .ok [] ∧
    ∃ e, importCerts (fun _ => .ok ⟨404, "nope"⟩) (fun _ => some []) = .error e :=
  ⟨((import_status_spec (fun _ => .ok ⟨200, "[]"⟩) (fun _ => some [])).1 []).mpr
      ⟨⟨200, "[]"⟩, rfl, rfl, rfl⟩,
    (import_status_spec (fun _ => .ok ⟨404, "nope"⟩) (fun _ => some [])).2
      ⟨404, "nope"⟩ rfl (by decide)⟩

/-- Counterexample to C8 as stated: a response with the 2xx status 201 and a
well-formed JSON array body is rejected — the code accepts only exactly
200 OK, not every 2xx status. -/
theorem import_2xx_counterexample :
    importCerts (fun _ => .ok ⟨201, "[]"⟩) (fun _ => some [])
      = .error (.unexpected "request failed") := by
  rfl

/-- C10: the URL constructed by `CertificatesImporter::new`, to which
`import` sends its GET requests, has path exactly "/certificates" on the
input URL's host: any path in the user-supplied issuer URL is discarded at
construction time rather than prefixed. -/
theorem issuer_url_path_spec (u : UrlM) :
    certificatesImporterUrl u = ⟨u.host, "/certificates"⟩ := by
  simp [certificatesImporterUrl, urlJoin, urlSetPath]

/-! ## Directory provider -/

/-- An all-or-nothing load fails whenever one element fails. -/
theorem mapOption_eq_none {β α : Type} {f : β → Option α} {l : List β} {x : β}
    (hx : x ∈ l) (hf : f x = none) : mapOption f l = none := by
  induction l with
  | nil => simp at hx
  | cons y ys ih =>
    rcases List.mem_cons.mp hx with rfl | hmem
    · simp [mapOption, hf]
    · cases hy : f y with
      | none => simp [mapOption, hy]
      | some v => simp [mapOption, hy, ih hmem]

/-- A successful all-or-nothing load covers every element. -/
theorem mapOption_length {β α : Type} {f : β → Option α} {l : List β} {ys : List α}
    (h : mapOption f l = some ys) : ys.length = l.length := by
  induction l generalizing ys with
  | nil => simp [mapOption] at h; simp [← h]
  | cons x xs ih =>
    cases hx : f x with
    | none => rw [mapOption, hx] at h; exact absurd h (by simp)
    | some v =>
      rw [mapOption, hx] at h
      cases hxs : mapOption f xs with
      | none => rw [hxs] at h; exact absurd h (by simp)
      | some vs =>
        rw [hxs] at h
        obtain rfl : v :: vs = ys := Option.some.inj h
        simp [ih hxs]

/-- C6: the directory provider is a filter of the entry list (non-files and
entries without a case-insensitive `.pem` extension are skipped) followed by
an all-or-nothing load of each remaining `<stem>.pem` / `<stem>.key` pair:
any unreadable pem or key file or unparseable pair makes the whole provider
call fail with no certificates, and a successful call returns exactly one
certificate per `.pem` entry, in directory order — never a partial list. -/
theorem dir_provider_all_or_nothing {α : Type} (readF : String → Option (List Nat))
    (parse : List Nat → List Nat → Option α) (entries : List DirEntry) :
    dirGetCertificates readF parse entries
      = mapOption (loadPair readF parse) (entries.filter isPemFileEntry) ∧
    (∀ e ∈ entries, isPemFileEntry e = true → loadPair readF parse e = none →
      dirGetCertificates readF parse entries = none) ∧
    (∀ certs, dirGetCertificates readF parse entries = some certs →
      certs.length = (entries.filter isPemFileEntry).length) := by
  have hmain : dirGetCertificates readF parse entries
      = mapOption (loadPair readF parse) (entries.filter isPemFileEntry) := by
    induction entries with
    | nil => rfl
    | cons e rest ih =>
      by_cases hf : e.isFile = false
      · have hpem : isPemFileEntry e = false := by simp [isPemFileEntry, hf]
        rw [dirGetCertificates, if_pos hf, List.filter_cons_of_neg (by simp [hpem])]
        exact ih
      · have hfile : e.isFile = true := by revert hf; cases e.isFile <;> simp
        rw [dirGetCertificates, if_neg hf]
        cases hext : (splitExt e.fname).2 with
        | none =>
          have hpem : isPemFileEntry e = false := by simp [isPemFileEntry, hext]
          rw [List.filter_cons_of_neg (by simp [hpem])]
          exact ih
        | some ext =>
          dsimp only
          by_cases hcase : eqIgnoreAsciiCase ext "pem" = false
          · have hpem : isPemFileEntry e = false := by
              simp [isPemFileEntry, hext, hcase]
            rw [if_pos hcase, List.filter_cons_of_neg (by simp [hpem])]
            exact ih
          · have hcase2 : eqIgnoreAsciiCase ext "pem" = true := by
              revert hcase; cases eqIgnoreAsciiCase ext "pem" <;> simp
            have hpem : isPemFileEntry e = true := by
              simp [isPemFileEntry, hfile, hext, hcase2]
            rw [if_neg hcase, List.filter_cons_of_pos (by simp [hpem]), mapOption]
            cases hc : readF e.fname with
            | none => simp [loadPair, hc]
            | some chain =>
              cases hk : readF ((splitExt e.fname).1 ++ ".key") with
              | none => simp [loadPair, hc, hk]
              | some key =>
                cases hp : parse key chain with
                | none => simp [loadPair, hc, hk, hp]
                | some cert => simp [loadPair, hc, hk, hp, ih]
  refine ⟨hmain, fun e he hpem hload => ?_, fun certs hcerts => ?_⟩
  · rw [hmain]
    exact mapOption_eq_none (List.mem_filter.mpr ⟨he, by simp [hpem]⟩) hload
  · rw [hmain] at hcerts
    exact mapOption_length hcerts

/-- Directory fixtures for the witness: one junk entry and one `.PEM` entry
whose sibling key file is unreadable. -/
def readFTest : String → Option (List Nat) :=
  fun s => if s = "a.PEM" then some [1] else none

def parseTest : List Nat → List Nat → Option String :=
  fun k _ => if k = [2] then some "crt" else none

def entriesTest : List DirEntry := [⟨"junk.txt", true⟩, ⟨"a.PEM", true⟩]

/-- Witness for C6 at concrete inputs: a `.PEM` file (case-insensitive match)
whose `<stem>.key` sibling cannot be read fails the whole provider call. -/
theorem dir_provider_all_or_nothing_witness :
    dirGetCertificates readFTest parseTest entriesTest = none :=
  (dir_provider_all_or_nothing readFTest parseTest entriesTest).2.1
    ⟨"a.PEM", true⟩ (by decide) (by decide) (by decide)

/-! ## SAN extraction -/

/-- C7: SAN extraction reads the first certificate of the chain and only its
first SubjectAlternativeName extension: without such an extension the
extraction fails regardless of the commonName (no commonName fallback, and
the result never depends on the commonName at all); DNS names are collected
as-is, 4-byte and 16-byte IP addresses are rendered as IPv4/IPv6 text, any
other general-name kind is skipped and any other IP length is an error; an
extension yielding no supported names is an error, and any successful
result is a non-empty SAN list. -/
theorem extract_san_spec (ip4 ip6 : List Nat → String) (cert : X509Cert) :
    (findSan cert.extensions = none → extract_san_from_der ip4 ip6 cert = none) ∧
    (∀ cn2, extract_san_from_der ip4 ip6 ⟨cn2, cert.extensions⟩
      = extract_san_from_der ip4 ip6 cert) ∧
    (∀ names, extract_san_from_der ip4 ip6 cert = some names → names ≠ []) ∧
    (∀ ns, findSan cert.extensions = some ns → renderGeneralNames ip4 ip6 ns = some [] →
      extract_san_from_der ip4 ip6 cert = none) ∧
    (∀ ns names, findSan cert.extensions = some ns →
      renderGeneralNames ip4 ip6 ns = some names → names ≠ [] →
      extract_san_from_der ip4 ip6 cert = some names) ∧
    (∀ s rest, renderGeneralNames ip4 ip6 (.dnsName s :: rest)
      = (renderGeneralNames ip4 ip6 rest).map (fun ns => s :: ns)) ∧
    (∀ v rest, v.length = 4 → renderGeneralNames ip4 ip6 (.ipAddress v :: rest)
      = (renderGeneralNames ip4 ip6 rest).map (fun ns => ip4 v :: ns)) ∧
    (∀ v rest, v.length = 16 → renderGeneralNames ip4 ip6 (.ipAddress v :: rest)
      = (renderGeneralNames ip4 ip6 rest).map (fun ns => ip6 v :: ns)) ∧
    (∀ v rest, v.length ≠ 4 → v.length ≠ 16 →
      renderGeneralNames ip4 ip6 (.ipAddress v :: rest) = none) ∧
    (∀ rest, renderGeneralNames ip4 ip6 (.otherKind :: rest)
      = renderGeneralNames ip4 ip6 rest) ∧
    (∀ restChain, pemChainSan ip4 ip6 (cert :: restChain)
      = extract_san_from_der ip4 ip6 cert) ∧
    pemChainSan ip4 ip6 [] = none := by
  refine ⟨?_, ?_, ?_, ?_, ?_, ?_, ?_, ?_, ?_, ?_, ?_, rfl⟩
  · intro h
    simp [extract_san_from_der, h]
  · intro cn2
    simp [extract_san_from_der]
  · intro names h
    unfold extract_san_from_der at h
    cases hf : findSan cert.extensions with
    | none => rw [hf] at h; exact absurd h (by simp)
    | some ns =>
      rw [hf] at h
      dsimp only at h
      cases hr : renderGeneralNames ip4 ip6 ns with
      | none => rw [hr] at h; exact absurd h (by simp)
      | some v =>
        rw [hr] at h
        dsimp only at h
        split_ifs at h with hv
        obtain rfl := Option.some.inj h
        exact hv
  · intro ns h hr
    simp [extract_san_from_der, h, hr]
  · intro ns names h hr hne
    simp [extract_san_from_der, h, hr, hne]
  · intro s rest
    rfl
  · intro v rest h4
    simp [renderGeneralNames, h4]
  · intro v rest h16
    have h4 : ¬v.length = 4 := by omega
    simp [renderGeneralNames, h4, h16]
  · intro v rest h4 h16
    simp [renderGeneralNames, h4, h16]
  · intro rest
    rfl
  · intro restChain
    rfl

/-- Witness for C7 at concrete inputs: a certificate whose first SAN
extension holds a DNS name, an ignored other-kind name and a 4-byte IP
yields exactly the two supported names; changing the commonName does not
change the result. -/
theorem extract_san_spec_witness :
    extract_san_from_der (fun _ => "1.2.3.4") (fun _ => "::1")
        ⟨"cn", [.otherExt, .subjectAltName [.dnsName "x.y", .otherKind, .ipAddress [1, 2, 3, 4]]]⟩
      = some ["x.y", "1.2.3.4"] ∧
    extract_san_from_der (fun _ => "1.2.3.4") (fun _ => "::1")
        ⟨"other-cn", [.otherExt, .subjectAltName [.dnsName "x.y", .otherKind, .ipAddress [1, 2, 3, 4]]]⟩
      = some ["x.y", "1.2.3.4"] := by
  have h1 := (extract_san_spec (fun _ => "1.2.3.4") (fun _ => "::1")
    ⟨"cn", [.otherExt, .subjectAltName [.dnsName "x.y", .otherKind, .ipAddress [1, 2, 3, 4]]]⟩).2.2.2.2.1
    [.dnsName "x.y", .otherKind, .ipAddress [1, 2, 3, 4]] ["x.y", "1.2.3.4"]
    (by decide) (by decide) (by decide)
  have h2 := (extract_san_spec (fun _ => "1.2.3.4") (fun _ => "::1")
    ⟨"cn", [.otherExt, .subjectAltName [.dnsName "x.y", .otherKind, .ipAddress [1, 2, 3, 4]]]⟩).2.1
    "other-cn"
  exact ⟨h1, h2.trans h1⟩

/-! ## Error-cause response bodies -/

/-- C9: for every error cause, the response body is
"<snake_case_kind>: <detail>\n" when the cause carries a detail and just
"<snake_case_kind>" when it does not, where the kind is the canonical
snake_case name produced by the `Display` implementation; `Denylisted`
instead gets the bundled HTML page (plus a trailing newline) as body. -/
theorem error_cause_body_spec (page451 : String) (c : ErrorCause) :
    (∀ d, c ≠ .denylisted → c.details = some d →
      intoResponseBody page451 c = c.display ++ ": " ++ d ++ "\n") ∧
    (c ≠ .denylisted → c.details = none →
      intoResponseBody page451 c = c.display) ∧
    intoResponseBody page451 .denylisted = page451 ++ "\n" := by
  have hhtml : c ≠ .denylisted → c.htmlBody page451 = none := by
    intro hne
    cases c <;> first | rfl | exact absurd rfl hne
  refine ⟨fun d hne hd => ?_, fun hne hd => ?_, rfl⟩
  · simp [intoResponseBody, hhtml hne, hd]
  · simp [intoResponseBody, hhtml hne, hd]

/-- Witness for C9 at concrete causes: `LoadShed` carries the detail
"Overloaded", `UnknownDomain` carries none. -/
theorem error_cause_body_spec_witness :
    intoResponseBody "page" .loadShed = "load_shed: Overloaded\n" ∧
    intoResponseBody "page" .unknownDomain = "unknown_domain" :=
  ⟨(error_cause_body_spec "page" .loadShed).1 "Overloaded" (by decide) rfl,
    (error_cause_body_spec "page" .unknownDomain).2.1 (by decide) rfl⟩
